import Mathlib

/-!
Verification development for the hpctoolkit package recipe
(var/spack/repos/builtin/packages/hpctoolkit/package.py) and for the
resolver/orchestrator core its specification describes.

Shallow embedding: a concrete Spec is a record of the resolved version,
variant values, target family, compiler, and the install prefixes of the
concrete dependencies; the recipe methods configure_args and
setup_run_environment become pure Lean functions over that record.
-/

namespace Hpctoolkit

/-- Package versions as they occur in recipes: a branch pin (such as
develop or master) or a dotted numeric version, stored as its list of
numeric components. -/
inductive PkgVersion where
  | branch (name : String)
  | numeric (parts : List Nat)
deriving DecidableEq, Repr

/-- Lexicographic order on dotted numeric versions (componentwise, a
shorter list is at most any extension of itself). -/
def numLe : List Nat → List Nat → Bool
  | [], _ => true
  | _ :: _, [] => false
  | a :: as, b :: bs => a < b || (a == b && numLe as bs)

/-- Modelled from the spec: ordering between branch pins and numeric
versions (the branch pins come first, newest-first, so a branch pin
compares newer than every numeric version; the comparison itself is not
in src, only its uses in the recipe are). -/
def verLe : PkgVersion → PkgVersion → Bool
  | .numeric a, .numeric b => numLe a b
  | .branch _, .numeric _ => false
  | .numeric _, .branch _ => true
  | .branch a, .branch b => a == b

/-- A concrete spec of the hpctoolkit package, as consumed by
configure_args: the resolved version, the six declared variant values,
the target family and compiler, the version of the dyninst node of the
DAG, the install prefix of each concrete dependency (by package name)
and the mpicxx wrapper path of the mpi dependency. -/
structure Spec where
  version : PkgVersion
  cray : Bool
  mpi : Bool
  papi : Bool
  allStatic : Bool
  cuda : Bool
  rocm : Bool
  targetFamily : String
  compilerName : String
  compilerVersion : List Nat
  dyninstVersion : List Nat
  prefOf : String → String
  mpicxx : String

/-- The fourteen unconditional arguments of Hpctoolkit.configure_args
(package.py lines 116-131), in source order. -/
def baseArgs (spec : Spec) : List String :=
  [ "--with-binutils=" ++ spec.prefOf "binutils",
    "--with-boost=" ++ spec.prefOf "boost",
    "--with-bzip=" ++ spec.prefOf "bzip2",
    "--with-dyninst=" ++ spec.prefOf "dyninst",
    "--with-elfutils=" ++ spec.prefOf "elfutils",
    "--with-gotcha=" ++ spec.prefOf "gotcha",
    "--with-tbb=" ++ spec.prefOf "intel-tbb",
    "--with-libdwarf=" ++ spec.prefOf "libdwarf",
    "--with-libmonitor=" ++ spec.prefOf "libmonitor",
    "--with-libunwind=" ++ spec.prefOf "libunwind",
    "--with-mbedtls=" ++ spec.prefOf "mbedtls",
    "--with-xerces=" ++ spec.prefOf "xerces-c",
    "--with-lzma=" ++ spec.prefOf "xz",
    "--with-zlib=" ++ spec.prefOf "zlib" ]

/-- package.py lines 133-134: the cuda block of configure_args. -/
def cudaArgs (spec : Spec) : List String :=
  if spec.cuda then ["--with-cuda=" ++ spec.prefOf "cuda"] else []

/-- package.py lines 136-137: the intel-xed block of configure_args. -/
def xedArgs (spec : Spec) : List String :=
  if spec.targetFamily == "x86_64" then ["--with-xed=" ++ spec.prefOf "intel-xed"] else []

/-- package.py lines 139-142: the papi/perfmon block of configure_args. -/
def papiArgs (spec : Spec) : List String :=
  if spec.papi then ["--with-papi=" ++ spec.prefOf "papi"]
  else ["--with-perfmon=" ++ spec.prefOf "libpfm4"]

/-- package.py lines 144-149: the rocm block of configure_args. -/
def rocmArgs (spec : Spec) : List String :=
  if spec.rocm then
    [ "--with-rocm-hip=" ++ spec.prefOf "hip",
      "--with-rocm-dbgapi=" ++ spec.prefOf "rocm-dbgapi",
      "--with-rocm-tracer=" ++ spec.prefOf "roctracer-dev" ]
  else []

/-- package.py lines 152-158: the cray/mpi block of configure_args. -/
def mpiArgs (spec : Spec) : List String :=
  if spec.cray then ["--enable-mpi-search=cray", "--enable-all-static"]
  else if spec.mpi then ["MPICXX=" ++ spec.mpicxx]
  else []

/-- package.py lines 160-161: the all-static block of configure_args. -/
def staticArgs (spec : Spec) : List String :=
  if spec.allStatic then ["--enable-all-static"] else []

/-- Hpctoolkit.configure_args (package.py lines 113-163): the argument
list starts from the fourteen unconditional with-arguments and each
conditional block appends its arguments in source order. -/
def configure_args (spec : Spec) : List String :=
  let args := baseArgs spec
  let args := args ++ cudaArgs spec
  let args := args ++ xedArgs spec
  let args := args ++ papiArgs spec
  let args := args ++ rocmArgs spec
  let args := args ++ mpiArgs spec
  let args := args ++ staticArgs spec
  args

theorem configure_args_eq (s : Spec) :
    configure_args s =
      baseArgs s ++ cudaArgs s ++ xedArgs s ++ papiArgs s ++ rocmArgs s
        ++ mpiArgs s ++ staticArgs s := rfl

theorem baseArgs_length (s : Spec) : (baseArgs s).length = 14 := rfl

/-- Claim C1: for every concrete spec, the list returned by
configure_args begins with exactly the fourteen with-arguments for
binutils, boost, bzip2 (as with-bzip), dyninst, elfutils, gotcha,
intel-tbb (as with-tbb), libdwarf, libmonitor, libunwind, mbedtls,
xerces-c (as with-xerces), xz (as with-lzma) and zlib, in that order,
each carrying that concrete dependency prefix. -/
theorem configure_args_first_fourteen (s : Spec) :
    (configure_args s).take 14 =
      [ "--with-binutils=" ++ s.prefOf "binutils",
        "--with-boost=" ++ s.prefOf "boost",
        "--with-bzip=" ++ s.prefOf "bzip2",
        "--with-dyninst=" ++ s.prefOf "dyninst",
        "--with-elfutils=" ++ s.prefOf "elfutils",
        "--with-gotcha=" ++ s.prefOf "gotcha",
        "--with-tbb=" ++ s.prefOf "intel-tbb",
        "--with-libdwarf=" ++ s.prefOf "libdwarf",
        "--with-libmonitor=" ++ s.prefOf "libmonitor",
        "--with-libunwind=" ++ s.prefOf "libunwind",
        "--with-mbedtls=" ++ s.prefOf "mbedtls",
        "--with-xerces=" ++ s.prefOf "xerces-c",
        "--with-lzma=" ++ s.prefOf "xz",
        "--with-zlib=" ++ s.prefOf "zlib" ] := by
  have h := configure_args_eq s
  rw [h]
  rw [List.append_assoc, List.append_assoc, List.append_assoc,
    List.append_assoc, List.append_assoc]
  have h14 : (14 : Nat) = (baseArgs s).length := (baseArgs_length s).symm
  rw [h14, List.take_left]
  rfl

/-- a starts with the constant c (on the underlying character lists). -/
def hasPref (c a : String) : Bool := decide (a.data.take c.data.length = c.data)

/-- The constants c and b disagree within their common length, so no
string extending b can start with c. -/
def clash (c b : String) : Prop :=
  b.data.take (min c.data.length b.data.length) ≠ c.data.take (min c.data.length b.data.length)

instance (c b : String) : Decidable (clash c b) := by unfold clash; infer_instance

theorem hasPref_append_self (c y : String) : hasPref c (c ++ y) = true := by
  simp [hasPref, String.data_append, List.take_append_of_le_length, List.take_length]

theorem hasPref_append_false (c b : String) (h : clash c b) (y : String) :
    hasPref c (b ++ y) = false := by
  unfold hasPref
  simp only [decide_eq_false_iff_not]
  intro habs
  apply h
  set k := min c.data.length b.data.length with hk
  have hkb : k ≤ b.data.length := Nat.min_le_right _ _
  have hkc : k ≤ c.data.length := Nat.min_le_left _ _
  have h2 : ((b ++ y).data.take c.data.length).take k = c.data.take k := by rw [habs]
  rw [List.take_take, Nat.min_eq_left hkc] at h2
  have h3 : (b ++ y).data.take k = b.data.take k := by
    rw [String.data_append]
    exact List.take_append_of_le_length hkb
  rw [h3] at h2
  exact h2

theorem append_ne (c b : String) (h : clash c b) (x y : String) : c ++ x ≠ b ++ y := by
  intro habs
  have hf : hasPref c (b ++ y) = false := hasPref_append_false c b h y
  rw [← habs, hasPref_append_self] at hf
  simp at hf

/-- An argument of the papi form or of the perfmon form. -/
def isPapiPerfmonArg (a : String) : Bool :=
  hasPref "--with-papi=" a || hasPref "--with-perfmon=" a

/-- An argument of the papi form. -/
def isPapiArg (a : String) : Bool := hasPref "--with-papi=" a

/-- An argument of the perfmon form. -/
def isPerfmonArg (a : String) : Bool := hasPref "--with-perfmon=" a

/-- An MPICXX assignment argument. -/
def isMpicxxArg (a : String) : Bool := hasPref "MPICXX=" a

/-- An argument of the with-cuda form. -/
def isCudaArg (a : String) : Bool := hasPref "--with-cuda=" a

theorem baseArgs_counts (s : Spec) :
    List.countP isPapiPerfmonArg (baseArgs s) = 0
    ∧ List.countP isPapiArg (baseArgs s) = 0
    ∧ List.countP isPerfmonArg (baseArgs s) = 0
    ∧ List.countP isMpicxxArg (baseArgs s) = 0
    ∧ List.countP isCudaArg (baseArgs s) = 0 := by
  refine ⟨?_, ?_, ?_, ?_, ?_⟩ <;>
    simp +decide [baseArgs, isPapiPerfmonArg, isPapiArg, isPerfmonArg, isMpicxxArg,
      isCudaArg, List.countP_cons, hasPref_append_false]

theorem cudaArgs_counts (s : Spec) :
    List.countP isPapiPerfmonArg (cudaArgs s) = 0
    ∧ List.countP isPapiArg (cudaArgs s) = 0
    ∧ List.countP isPerfmonArg (cudaArgs s) = 0
    ∧ List.countP isMpicxxArg (cudaArgs s) = 0
    ∧ List.countP isCudaArg (cudaArgs s) = (if s.cuda then 1 else 0) := by
  cases hc : s.cuda <;>
    refine ⟨?_, ?_, ?_, ?_, ?_⟩ <;>
    simp +decide [cudaArgs, hc, isPapiPerfmonArg, isPapiArg, isPerfmonArg, isMpicxxArg,
      isCudaArg, List.countP_cons, hasPref_append_false, hasPref_append_self]

theorem xedArgs_counts (s : Spec) :
    List.countP isPapiPerfmonArg (xedArgs s) = 0
    ∧ List.countP isPapiArg (xedArgs s) = 0
    ∧ List.countP isPerfmonArg (xedArgs s) = 0
    ∧ List.countP isMpicxxArg (xedArgs s) = 0
    ∧ List.countP isCudaArg (xedArgs s) = 0 := by
  cases hx : (s.targetFamily == "x86_64") <;>
    refine ⟨?_, ?_, ?_, ?_, ?_⟩ <;>
    simp +decide [xedArgs, hx, isPapiPerfmonArg, isPapiArg, isPerfmonArg, isMpicxxArg,
      isCudaArg, List.countP_cons, hasPref_append_false]

theorem papiArgs_counts (s : Spec) :
    List.countP isPapiPerfmonArg (papiArgs s) = 1
    ∧ List.countP isPapiArg (papiArgs s) = (if s.papi then 1 else 0)
    ∧ List.countP isPerfmonArg (papiArgs s) = (if s.papi then 0 else 1)
    ∧ List.countP isMpicxxArg (papiArgs s) = 0
    ∧ List.countP isCudaArg (papiArgs s) = 0 := by
  cases hp : s.papi <;>
    refine ⟨?_, ?_, ?_, ?_, ?_⟩ <;>
    simp +decide [papiArgs, hp, isPapiPerfmonArg, isPapiArg, isPerfmonArg, isMpicxxArg,
      isCudaArg, List.countP_cons, hasPref_append_false, hasPref_append_self]

theorem rocmArgs_counts (s : Spec) :
    List.countP isPapiPerfmonArg (rocmArgs s) = 0
    ∧ List.countP isPapiArg (rocmArgs s) = 0
    ∧ List.countP isPerfmonArg (rocmArgs s) = 0
    ∧ List.countP isMpicxxArg (rocmArgs s) = 0
    ∧ List.countP isCudaArg (rocmArgs s) = 0 := by
  cases hr : s.rocm <;>
    refine ⟨?_, ?_, ?_, ?_, ?_⟩ <;>
    simp +decide [rocmArgs, hr, isPapiPerfmonArg, isPapiArg, isPerfmonArg, isMpicxxArg,
      isCudaArg, List.countP_cons, hasPref_append_false]

theorem mpiArgs_counts (s : Spec) :
    List.countP isPapiPerfmonArg (mpiArgs s) = 0
    ∧ List.countP isPapiArg (mpiArgs s) = 0
    ∧ List.countP isPerfmonArg (mpiArgs s) = 0
    ∧ List.countP isMpicxxArg (mpiArgs s)
        = (if s.cray then 0 else if s.mpi then 1 else 0)
    ∧ List.countP isCudaArg (mpiArgs s) = 0 := by
  cases hc : s.cray <;> cases hm : s.mpi <;>
    refine ⟨?_, ?_, ?_, ?_, ?_⟩ <;>
    simp +decide [mpiArgs, hc, hm, isPapiPerfmonArg, isPapiArg, isPerfmonArg, isMpicxxArg,
      isCudaArg, List.countP_cons, hasPref_append_false, hasPref_append_self, hasPref]

theorem staticArgs_counts (s : Spec) :
    List.countP isPapiPerfmonArg (staticArgs s) = 0
    ∧ List.countP isPapiArg (staticArgs s) = 0
    ∧ List.countP isPerfmonArg (staticArgs s) = 0
    ∧ List.countP isMpicxxArg (staticArgs s) = 0
    ∧ List.countP isCudaArg (staticArgs s) = 0 := by
  cases ha : s.allStatic <;>
    refine ⟨?_, ?_, ?_, ?_, ?_⟩ <;>
    simp +decide [staticArgs, ha, isPapiPerfmonArg, isPapiArg, isPerfmonArg, isMpicxxArg,
      isCudaArg, List.countP_cons, hasPref]

/-- Claim C8: for every concrete spec, configure_args emits exactly one
argument of the papi or perfmon form; when the papi variant is on it is
the papi argument and no perfmon argument occurs, when it is off it is
the perfmon argument and no papi argument occurs. -/
theorem papi_perfmon_exclusive (s : Spec) :
    List.countP isPapiPerfmonArg (configure_args s) = 1
    ∧ (s.papi = true →
        ("--with-papi=" ++ s.prefOf "papi") ∈ configure_args s
        ∧ List.countP isPerfmonArg (configure_args s) = 0)
    ∧ (s.papi = false →
        ("--with-perfmon=" ++ s.prefOf "libpfm4") ∈ configure_args s
        ∧ List.countP isPapiArg (configure_args s) = 0) := by
  refine ⟨?_, fun hp => ⟨?_, ?_⟩, fun hp => ⟨?_, ?_⟩⟩
  · simp [configure_args_eq, List.countP_append, (baseArgs_counts s).1,
      (cudaArgs_counts s).1, (xedArgs_counts s).1, (papiArgs_counts s).1,
      (rocmArgs_counts s).1, (mpiArgs_counts s).1, (staticArgs_counts s).1]
  · simp [configure_args_eq, List.mem_append, papiArgs, hp]
  · simp [configure_args_eq, List.countP_append, (baseArgs_counts s).2.2.1,
      (cudaArgs_counts s).2.2.1, (xedArgs_counts s).2.2.1, (papiArgs_counts s).2.2.1,
      (rocmArgs_counts s).2.2.1, (mpiArgs_counts s).2.2.1, (staticArgs_counts s).2.2.1, hp]
  · simp [configure_args_eq, List.mem_append, papiArgs, hp]
  · simp [configure_args_eq, List.countP_append, (baseArgs_counts s).2.1,
      (cudaArgs_counts s).2.1, (xedArgs_counts s).2.1, (papiArgs_counts s).2.1,
      (rocmArgs_counts s).2.1, (mpiArgs_counts s).2.1, (staticArgs_counts s).2.1, hp]

/-- Claim C9: cray takes precedence over mpi in configure_args: with
the cray variant on, the cray mpi-search and all-static arguments are
emitted and no MPICXX argument is; an MPICXX argument occurs exactly
when the mpi variant is on and the cray variant is off. -/
theorem cray_over_mpi (s : Spec) :
    (s.cray = true →
      "--enable-mpi-search=cray" ∈ configure_args s
      ∧ "--enable-all-static" ∈ configure_args s)
    ∧ List.countP isMpicxxArg (configure_args s)
        = (if s.cray = false ∧ s.mpi = true then 1 else 0)
    ∧ (s.cray = true → List.countP isMpicxxArg (configure_args s) = 0) := by
  have hall : List.countP isMpicxxArg (configure_args s)
      = List.countP isMpicxxArg (mpiArgs s) := by
    simp [configure_args_eq, List.countP_append, (baseArgs_counts s).2.2.2.1,
      (cudaArgs_counts s).2.2.2.1, (xedArgs_counts s).2.2.2.1,
      (papiArgs_counts s).2.2.2.1, (rocmArgs_counts s).2.2.2.1,
      (staticArgs_counts s).2.2.2.1]
  have hchar : List.countP isMpicxxArg (configure_args s)
      = (if s.cray = false ∧ s.mpi = true then 1 else 0) := by
    rw [hall, (mpiArgs_counts s).2.2.2.1]
    cases hcr : s.cray <;> cases hm : s.mpi <;> simp
  refine ⟨?_, hchar, ?_⟩
  · intro hc
    constructor <;> simp [configure_args_eq, List.mem_append, mpiArgs, hc]
  · intro hc
    rw [hchar, hc]
    simp

/-- Hpctoolkit.configure_args viewed as a call on the package object
with its state passed explicitly: the method reads self.spec, builds
the local args list block by block exactly as the source does, and
returns it together with the state of the object after the call (the
body contains no write to self or to its spec). -/
def configure_args_call (self : Spec) : List String × Spec :=
  let spec := self
  let args := baseArgs spec
  let args := args ++ cudaArgs spec
  let args := args ++ xedArgs spec
  let args := args ++ papiArgs spec
  let args := args ++ rocmArgs spec
  let args := args ++ mpiArgs spec
  let args := args ++ staticArgs spec
  (args, self)

/-- Claim C2: configure_args is a pure function of the concretized
spec: two calls on equal concrete specs return identical argument
lists, and a call leaves the package state (the spec) unchanged. -/
theorem configure_args_pure (s t : Spec) (h : s = t) :
    (configure_args_call s).1 = (configure_args_call t).1
    ∧ (configure_args_call s).2 = s
    ∧ (configure_args_call t).2 = t
    ∧ (configure_args_call s).1 = configure_args s := by
  subst h
  exact ⟨rfl, rfl, rfl, rfl⟩

/-- needle is a leading segment of hay (character lists). -/
def prefChars : List Char → List Char → Bool
  | [], _ => true
  | _ :: _, [] => false
  | a :: as, b :: bs => a == b && prefChars as bs

/-- needle occurs somewhere inside hay (character lists). -/
def infixChars : List Char → List Char → Bool
  | p, [] => prefChars p []
  | p, b :: bs => prefChars p (b :: bs) || infixChars p bs

/-- The Python test name.find(sub) greater or equal to zero: sub occurs
as a contiguous substring of s. -/
def containsStr (s sub : String) : Bool := infixChars sub.data s.data

/-- Modelled from the spec: the kinds of run-time environment
modification the Environment Composer carries (set-variable, unset,
PATH-like prepend and append); the class SetEnv named by the recipe is
the set-variable kind, and the modification type itself lives in
spack.util.environment, outside the shown file. -/
inductive EnvMod where
  | setEnv (name value : String)
  | unsetEnv (name : String)
  | prependPath (name value : String)
  | appendPath (name value : String)
deriving DecidableEq, Repr

/-- The test of package.py lines 171-174: the element is a SetEnv whose
variable name contains ROCM, HIP or CUDA. -/
def isAccelSetEnv : EnvMod → Bool
  | .setEnv n _ => containsStr n "ROCM" || containsStr n "HIP" || containsStr n "CUDA"
  | _ => false

/-- The for-loop of Hpctoolkit.setup_run_environment (package.py lines
169-175): walk env_modifications in order and append to keeplist every
element that fails the accelerator SetEnv test. -/
def keepLoop : List EnvMod → List EnvMod
  | [] => []
  | elt :: rest => if !(isAccelSetEnv elt) then elt :: keepLoop rest else keepLoop rest

/-- Hpctoolkit.setup_run_environment (package.py lines 168-178): the
environment object ends up holding exactly keeplist (env.clear()
followed by assigning keeplist); self is read for nothing. -/
def setup_run_environment (_self : Spec) (env : List EnvMod) : List EnvMod :=
  keepLoop env

theorem keepLoop_eq_filter (env : List EnvMod) :
    keepLoop env = env.filter (fun e => !(isAccelSetEnv e)) := by
  induction env with
  | nil => rfl
  | cons e rest ih =>
    by_cases h : isAccelSetEnv e = true
    · simp [keepLoop, List.filter, h, ih]
    · simp at h
      simp [keepLoop, List.filter, h, ih]

/-- Claim C10: setup_run_environment keeps exactly the
non-accelerator entries: the result is the subsequence of the input
consisting of the entries that are not SetEnv modifications whose name
contains ROCM, HIP or CUDA, with order and contents unchanged. -/
theorem setup_run_environment_frame (s : Spec) (env : List EnvMod) :
    setup_run_environment s env = env.filter (fun e => !(isAccelSetEnv e))
    ∧ List.Sublist (setup_run_environment s env) env
    ∧ (∀ e ∈ setup_run_environment s env, isAccelSetEnv e = false)
    ∧ (∀ e ∈ env, isAccelSetEnv e = false → e ∈ setup_run_environment s env) := by
  have hf := keepLoop_eq_filter env
  refine ⟨hf, ?_, ?_, ?_⟩
  · rw [show setup_run_environment s env = keepLoop env from rfl, hf]
    exact List.filter_sublist env
  · intro e he
    rw [show setup_run_environment s env = keepLoop env from rfl, hf] at he
    have := List.of_mem_filter he
    simpa using this
  · intro e he hacc
    rw [show setup_run_environment s env = keepLoop env from rfl, hf]
    exact List.mem_filter_of_mem he (by simp [hacc])

/-- Claim C3 counterexample: the run-environment filter of this recipe
is not variant- or platform-dependent — there is no pair of specs, of
any variants and platforms, on which setup_run_environment filters an
environment differently. -/
theorem run_env_filter_spec_independent :
    ¬ ∃ (s₁ s₂ : Spec) (env : List EnvMod),
      setup_run_environment s₁ env ≠ setup_run_environment s₂ env := by
  intro h
  obtain ⟨s₁, s₂, env, hne⟩ := h
  exact hne rfl

/-- Claim C3 (amended): the recipe suppresses accelerator SetEnv
entries (names containing ROCM, HIP or CUDA) unconditionally: the
suppression predicate reads neither variants nor platform, so every
pair of specs yields the same filtered environment, namely the
non-accelerator subsequence. -/
theorem run_env_filter_unconditional (s₁ s₂ : Spec) (env : List EnvMod) :
    setup_run_environment s₁ env = setup_run_environment s₂ env
    ∧ setup_run_environment s₁ env = env.filter (fun e => !(isAccelSetEnv e)) := by
  exact ⟨rfl, keepLoop_eq_filter env⟩

/-- The six variant declarations of package.py lines 39-62 with their
declared defaults, in source order. -/
def declaredVariants : List (String × Bool) :=
  [ ("cray", false), ("mpi", false), ("papi", true),
    ("all-static", false), ("cuda", false), ("rocm", false) ]

/-- The declared default of a variant of this recipe. -/
def variantDefault (n : String) : Option Bool := declaredVariants.lookup n

/-- One conditional dependency declaration: the dependency package name
and the activation predicate its when-clause denotes on a concrete
spec of this package. -/
structure DependencyRule where
  name : String
  active : Spec → Bool

/-- The depends_on declarations of package.py lines 69-97, in source
order; each when-clause becomes the corresponding predicate on the
concrete spec (version ranges through verLe, variant tests through the
variant fields, the target clause through the target family). -/
def dependencyRules : List DependencyRule :=
  [ ⟨"binutils", fun s => verLe (.numeric [2021, 0]) s.version⟩,
    ⟨"binutils", fun s => verLe (.numeric [2020, 4]) s.version
        && verLe s.version (.numeric [2020, 99])⟩,
    ⟨"binutils", fun s => verLe s.version (.numeric [2020, 3, 99])⟩,
    ⟨"boost", fun _ => true⟩,
    ⟨"bzip2", fun _ => true⟩,
    ⟨"dyninst", fun _ => true⟩,
    ⟨"elfutils", fun _ => true⟩,
    ⟨"gotcha", fun _ => true⟩,
    ⟨"intel-tbb", fun _ => true⟩,
    ⟨"libdwarf", fun _ => true⟩,
    ⟨"libmonitor", fun s => verLe (.numeric [2021, 0]) s.version⟩,
    ⟨"libmonitor", fun s => verLe s.version (.numeric [2020, 99])⟩,
    ⟨"libunwind", fun s => verLe (.numeric [2020, 9, 0]) s.version⟩,
    ⟨"libunwind", fun s => verLe s.version (.numeric [2020, 8, 99])⟩,
    ⟨"mbedtls", fun _ => true⟩,
    ⟨"xerces-c", fun _ => true⟩,
    ⟨"xz", fun s => verLe (.numeric [2020, 9, 0]) s.version⟩,
    ⟨"xz", fun s => verLe s.version (.numeric [2020, 8, 99])⟩,
    ⟨"zlib", fun _ => true⟩,
    ⟨"cuda", fun s => s.cuda⟩,
    ⟨"intel-xed", fun s => s.targetFamily == "x86_64"⟩,
    ⟨"papi", fun s => s.papi⟩,
    ⟨"libpfm4", fun s => !s.papi⟩,
    ⟨"mpi", fun s => s.mpi⟩,
    ⟨"hip", fun s => s.rocm⟩,
    ⟨"rocm-dbgapi", fun s => s.rocm⟩,
    ⟨"roctracer-dev", fun s => s.rocm⟩ ]

/-- Modelled from the spec: the Constraint Solver (not under src, only
this recipe is) includes dependency dep in the resolved DAG of this
package exactly when some conditional dependency rule for dep has a
true activation predicate on the concrete spec — resolving with the
feature enabled must include the dependency in the DAG, resolving with
default variants must not include it at all. -/
def dagIncludes (s : Spec) (dep : String) : Bool :=
  dependencyRules.any (fun r => r.name == dep && r.active s)

/-- Claim C4: the cuda variant defaults to False; a concrete spec with
cuda enabled pulls the cuda dependency into the DAG and configure_args
emits exactly one with-cuda argument carrying its prefix, while a spec
with cuda disabled (the default) pulls no cuda dependency and emits no
with-cuda argument. -/
theorem cuda_variant_conditional (s : Spec) :
    variantDefault "cuda" = some false
    ∧ dagIncludes s "cuda" = s.cuda
    ∧ List.countP isCudaArg (configure_args s) = (if s.cuda then 1 else 0)
    ∧ (s.cuda = true → ("--with-cuda=" ++ s.prefOf "cuda") ∈ configure_args s) := by
  refine ⟨rfl, ?_, ?_, ?_⟩
  · simp +decide [dagIncludes, dependencyRules, List.any_cons, List.any_nil]
  · simp [configure_args_eq, List.countP_append, (baseArgs_counts s).2.2.2.2,
      (cudaArgs_counts s).2.2.2.2, (xedArgs_counts s).2.2.2.2,
      (papiArgs_counts s).2.2.2.2, (rocmArgs_counts s).2.2.2.2,
      (mpiArgs_counts s).2.2.2.2, (staticArgs_counts s).2.2.2.2]
  · intro hc
    simp [configure_args_eq, List.mem_append, cudaArgs, hc]

/-- A source reference a version declaration pins: a git branch or a
git commit. -/
inductive SourceRef where
  | branchRef (name : String)
  | commitRef (sha : String)
deriving DecidableEq, Repr

/-- The version declarations of package.py lines 22-32 in declared
order: the two branch pins first, then the dated commit pins (the
2021.02.10 line is commented out in the source and therefore absent). -/
def declaredVersions : List (PkgVersion × SourceRef) :=
  [ (.branch "develop", .branchRef "develop"),
    (.branch "master", .branchRef "master"),
    (.numeric [2020, 8, 3], .commitRef "d9d13c705d81e5de38e624254cf0875cce6add9a"),
    (.numeric [2020, 7, 21], .commitRef "4e56c780cffc53875aca67d6472a2fb3678970eb"),
    (.numeric [2020, 6, 12], .commitRef "ac6ae1156e77d35596fea743ed8ae768f7222f19"),
    (.numeric [2020, 3, 1], .commitRef "94ede4e6fa1e05e6f080be8dc388240ea027f769"),
    (.numeric [2019, 12, 28], .commitRef "b4e1877ff96069fd8ed0fdf0e36283a5b4b62240"),
    (.numeric [2019, 8, 14], .commitRef "6ea44ed3f93ede2d0a48937f288a2d41188a277c"),
    (.numeric [2018, 12, 28], .commitRef "8dbf0d543171ffa9885344f32f23cc6f7f6e39bc"),
    (.numeric [2018, 11, 5], .commitRef "d0c43e39020e67095b1f1d8bb89b75f22b12aee9") ]

/-- Modelled from the spec: the Recipe Repository answers a candidate
query with the versions in the declared order of the recipe — the
declared order is authoritative and the resolver tries candidates in
exactly that order. -/
def candidateVersions : List PkgVersion := declaredVersions.map Prod.fst

/-- v is a dated (numeric) version. -/
def isNumericVer : PkgVersion → Bool
  | .numeric _ => true
  | .branch _ => false

/-- strictly-newer comparison on dated versions: a is newer than b. -/
def numGt (a b : List Nat) : Bool := !numLe a b

/-- Every adjacent pair of the list is strictly decreasing as dated
versions. -/
def datedStrictDesc : List PkgVersion → Bool
  | [] => true
  | [v] => isNumericVer v
  | .numeric a :: .numeric b :: rest => numGt a b && datedStrictDesc (.numeric b :: rest)
  | _ => false

/-- Claim C7: candidate order is the declared order of the recipe: the
branch pins develop and master come first, the remaining declarations
are commit-pinned dated versions in strictly decreasing date order,
and the repository hands the resolver exactly that list. -/
theorem candidate_order_declared :
    candidateVersions = declaredVersions.map Prod.fst
    ∧ candidateVersions.take 2 = [.branch "develop", .branch "master"]
    ∧ datedStrictDesc (candidateVersions.drop 2) = true
    ∧ (declaredVersions.drop 2).all
        (fun d => (match d.2 with | .commitRef _ => true | _ => false)) = true
    ∧ candidateVersions.length = 10 := by
  refine ⟨rfl, rfl, by decide, rfl, rfl⟩

/-- One conflicts declaration: the activation predicate its constraint
and when-clause denote on a concrete spec, and the message. -/
structure ConflictRule where
  active : Spec → Bool
  msg : String

/-- The conflicts declarations of package.py lines 99-109, in source
order: a rule is activated on a concrete spec when the constrained
thing is present and the when-clause holds. -/
def conflictRules : List ConflictRule :=
  [ ⟨fun s => (s.compilerName == "gcc" && numLe s.compilerVersion [4, 7, 99])
        && verLe (.numeric [10, 0, 0]) (.numeric s.dyninstVersion),
      "hpctoolkit requires gnu gcc 4.8.x or later"⟩,
    ⟨fun s => (s.compilerName == "gcc" && numLe s.compilerVersion [4, 99, 99])
        && verLe (.numeric [2020, 3, 1]) s.version,
      "hpctoolkit requires gnu gcc 5.x or later"⟩,
    ⟨fun s => s.cuda && verLe s.version (.numeric [2019, 99, 99]),
      "cuda requires 2020.03.01 or later"⟩,
    ⟨fun s => s.rocm && verLe s.version (.numeric [2020, 99, 99]),
      "rocm requires 2021.02.10 or later"⟩ ]

/-- Modelled from the spec: resolve returns a DAG only when every
conflict rule across the graph has a false activation predicate; on
this package that is the acceptance test on its concrete spec. -/
def resolveAccepts (s : Spec) : Bool := conflictRules.all (fun r => !(r.active s))

/-- Modelled from the spec: the concretization of this package either
yields a concrete spec every conflict rule rejects to fire on, or
reports unsatisfiability (none). -/
def concretize (s : Spec) : Option Spec :=
  if resolveAccepts s then some s else none

/-- Claim C6: every spec concretization returns satisfies no conflict
rule; in particular a concrete spec with cuda enabled never has
version at most 2019.99.99 and one with rocm enabled never has version
at most 2020.99.99. -/
theorem no_conflict_in_resolved (s t : Spec) (h : concretize s = some t) :
    conflictRules.all (fun r => !(r.active t)) = true
    ∧ (t.cuda = true → verLe t.version (.numeric [2019, 99, 99]) = false)
    ∧ (t.rocm = true → verLe t.version (.numeric [2020, 99, 99]) = false) := by
  have hst : resolveAccepts s = true ∧ s = t := by
    by_cases hr : resolveAccepts s = true
    · refine ⟨hr, ?_⟩
      unfold concretize at h
      rw [hr] at h
      simpa using h
    · exfalso
      unfold concretize at h
      simp [hr] at h
  obtain ⟨hr, hst⟩ := hst
  subst hst
  refine ⟨hr, ?_, ?_⟩
  · intro hcuda
    have h3 : (!(s.cuda && verLe s.version (.numeric [2019, 99, 99]))) = true := by
      have := hr
      unfold resolveAccepts conflictRules at this
      simp only [List.all_cons, List.all_nil, Bool.and_eq_true] at this
      exact this.2.2.1
    rw [hcuda] at h3
    simpa using h3
  · intro hrocm
    have h4 : (!(s.rocm && verLe s.version (.numeric [2020, 99, 99]))) = true := by
      have := hr
      unfold resolveAccepts conflictRules at this
      simp only [List.all_cons, List.all_nil, Bool.and_eq_true] at this
      exact this.2.2.2.1
    rw [hrocm] at h4
    simpa using h4

/-- A version range constraint on a dependency: an optional inclusive
lower bound and an optional inclusive upper bound on the dotted
numeric version. -/
structure VRange where
  lo : Option (List Nat)
  hi : Option (List Nat)
deriving DecidableEq, Repr

/-- v lies in the range r (inclusive bounds, missing bound is open). -/
def inRange (v : List Nat) (r : VRange) : Bool :=
  (match r.lo with | none => true | some a => numLe a v)
  && (match r.hi with | none => true | some b => numLe v b)

/-- Modelled from the spec: the single choice the resolver makes for
one dependency name — among the candidate versions the repository
lists for that name (newest first), the first one satisfying every
range constraint requested for that name, or none when no candidate
satisfies them all. -/
def pickVersion (repo : String → List (List Nat)) (reqs : List (String × VRange))
    (n : String) : Option (String × List Nat) :=
  match ((repo n).filter
      (fun v => (reqs.filter (fun r => r.1 == n)).all (fun r => inRange v r.2))).head? with
  | some v => some (n, v)
  | none => none

/-- Modelled from the spec: resolve the distinct requested names one
by one, failing as soon as one name has no version satisfying all of
its requested constraints (two independent subgraphs requesting the
same dependency name must unify to one node or fail). -/
def resolveNames (repo : String → List (List Nat)) (reqs : List (String × VRange)) :
    List String → Option (List (String × List Nat))
  | [] => some []
  | n :: ns =>
    match pickVersion repo reqs n, resolveNames repo reqs ns with
    | some p, some rest => some (p :: rest)
    | _, _ => none

/-- Modelled from the spec: the resolver unifies all requests for the
same dependency name into a single node: it resolves the deduplicated
list of requested names. -/
def resolveDeps (repo : String → List (List Nat)) (reqs : List (String × VRange)) :
    Option (List (String × List Nat)) :=
  resolveNames repo reqs ((reqs.map Prod.fst).dedup)

theorem mem_of_head?_some {α : Type} {l : List α} {a : α} (h : l.head? = some a) :
    a ∈ l := by
  cases l with
  | nil => simp at h
  | cons b t =>
    simp only [List.head?_cons, Option.some.injEq] at h
    rw [← h]
    exact List.mem_cons_self b t

theorem pickVersion_fst {repo : String → List (List Nat)} {reqs : List (String × VRange)}
    {n : String} {p : String × List Nat} (h : pickVersion repo reqs n = some p) :
    p.1 = n := by
  unfold pickVersion at h
  cases hh : ((repo n).filter
      (fun v => (reqs.filter (fun r => r.1 == n)).all (fun r => inRange v r.2))).head? with
  | none => rw [hh] at h; simp at h
  | some v =>
    rw [hh] at h
    simp only [Option.some.injEq] at h
    rw [← h]

theorem pickVersion_sat {repo : String → List (List Nat)} {reqs : List (String × VRange)}
    {n : String} {p : String × List Nat} (h : pickVersion repo reqs n = some p) :
    p.2 ∈ repo n ∧ ∀ r ∈ reqs, r.1 = n → inRange p.2 r.2 = true := by
  unfold pickVersion at h
  cases hh : ((repo n).filter
      (fun v => (reqs.filter (fun r => r.1 == n)).all (fun r => inRange v r.2))).head? with
  | none => rw [hh] at h; simp at h
  | some v =>
    rw [hh] at h
    simp only [Option.some.injEq] at h
    have hv := mem_of_head?_some hh
    have hmem := List.mem_filter.mp hv
    have hp2 : p.2 = v := by rw [← h]
    constructor
    · rw [hp2]; exact hmem.1
    · intro r hr hrn
      have hall := List.all_eq_true.mp hmem.2
      have hrf : r ∈ reqs.filter (fun r => r.1 == n) :=
        List.mem_filter.mpr ⟨hr, by simp [hrn]⟩
      have := hall r hrf
      rw [hp2]
      simpa using this

theorem resolveNames_shape {repo : String → List (List Nat)}
    {reqs : List (String × VRange)} :
    ∀ {ns : List String} {d : List (String × List Nat)},
      resolveNames repo reqs ns = some d →
      d.map Prod.fst = ns ∧ ∀ p ∈ d, pickVersion repo reqs p.1 = some p := by
  intro ns
  induction ns with
  | nil =>
    intro d h
    simp only [resolveNames, Option.some.injEq] at h
    rw [← h]
    exact ⟨rfl, by intro p hp; simp at hp⟩
  | cons n ns ih =>
    intro d h
    unfold resolveNames at h
    cases hpick : pickVersion repo reqs n with
    | none => rw [hpick] at h; simp at h
    | some p =>
      cases hrest : resolveNames repo reqs ns with
      | none => rw [hpick, hrest] at h; simp at h
      | some rest =>
        rw [hpick, hrest] at h
        simp only [Option.some.injEq] at h
        obtain ⟨hmap, hmem⟩ := ih hrest
        have hfst : p.1 = n := pickVersion_fst hpick
        constructor
        · rw [← h]
          simp [hmap, hfst]
        · intro q hq
          rw [← h] at hq
          rcases List.mem_cons.mp hq with hq | hq
          · rw [hq, hfst]
            exact hpick
          · exact hmem q hq

theorem resolveNames_fail {repo : String → List (List Nat)}
    {reqs : List (String × VRange)} {n : String} :
    ∀ {ns : List String}, n ∈ ns → pickVersion repo reqs n = none →
      resolveNames repo reqs ns = none := by
  intro ns
  induction ns with
  | nil => intro h; simp at h
  | cons m ms ih =>
    intro hmem hnone
    rcases List.mem_cons.mp hmem with hmn | hmn
    · unfold resolveNames
      rw [← hmn, hnone]
    · unfold resolveNames
      rw [ih hmn hnone]
      cases pickVersion repo reqs m <;> rfl

/-- Claim C5: the modelled resolver unifies all requests for one
dependency name into a single node: a returned DAG never carries two
versions for one name, every node satisfies every range requested for
its name (so binutils requested at most 2.34 and at most 2.33.1
resolves to one version at most 2.33.1), every requested name is
resolved, and when no candidate version of a requested name satisfies
all ranges requested for it the resolver fails. -/
theorem single_instance_unification (repo : String → List (List Nat))
    (reqs : List (String × VRange)) :
    (∀ d, resolveDeps repo reqs = some d →
      (∀ p ∈ d, ∀ q ∈ d, p.1 = q.1 → p.2 = q.2)
      ∧ (∀ p ∈ d, p.2 ∈ repo p.1 ∧ ∀ r ∈ reqs, r.1 = p.1 → inRange p.2 r.2 = true)
      ∧ (∀ n ∈ reqs.map Prod.fst, ∃ v, (n, v) ∈ d))
    ∧ (∀ n ∈ reqs.map Prod.fst,
        (∀ v ∈ repo n,
          ((reqs.filter (fun r => r.1 == n)).all (fun r => inRange v r.2)) = false) →
        resolveDeps repo reqs = none) := by
  constructor
  · intro d h
    obtain ⟨hmap, hpick⟩ := resolveNames_shape h
    have hnodup : (d.map Prod.fst).Nodup := by
      rw [hmap]; exact List.nodup_dedup _
    refine ⟨?_, ?_, ?_⟩
    · intro p hp q hq hpq
      have := List.inj_on_of_nodup_map hnodup hp hq hpq
      rw [this]
    · intro p hp
      have hs := pickVersion_sat (hpick p hp)
      exact ⟨hs.1, fun r hr hrp => hs.2 r hr hrp⟩
    · intro n hn
      have hdn : n ∈ (reqs.map Prod.fst).dedup := List.mem_dedup.mpr hn
      rw [← hmap] at hdn
      obtain ⟨p, hp, hpn⟩ := List.mem_map.mp hdn
      refine ⟨p.2, ?_⟩
      have : (n, p.2) = p := by
        rw [← hpn]
      rw [this]
      exact hp
  · intro n hn hfail
    unfold resolveDeps
    apply resolveNames_fail (List.mem_dedup.mpr hn)
    unfold pickVersion
    have hfilter : ((repo n).filter
        (fun v => (reqs.filter (fun r => r.1 == n)).all (fun r => inRange v r.2))) = [] := by
      apply List.filter_eq_nil_iff.mpr
      intro v hv
      rw [hfail v hv]
      simp
    rw [hfilter]
    rfl

/-- Concrete install-prefix assignment used by the witnesses. -/
def demoPaths : String → String := fun n => "/opt/spack/" ++ n

/-- A concrete spec with every variant at its declared default, on an
x86_64 target with gcc 9.3.0, at version 2020.08.03. -/
def specBase : Spec :=
  { version := .numeric [2020, 8, 3]
    cray := false
    mpi := false
    papi := true
    allStatic := false
    cuda := false
    rocm := false
    targetFamily := "x86_64"
    compilerName := "gcc"
    compilerVersion := [9, 3, 0]
    dyninstVersion := [10, 2, 1]
    prefOf := demoPaths
    mpicxx := "/opt/spack/mpi/bin/mpicxx" }

/-- specBase with the cuda variant enabled. -/
def specCudaOn : Spec := { specBase with cuda := true }

/-- specBase with the papi variant disabled. -/
def specPapiOff : Spec := { specBase with papi := false }

/-- specBase with cray and mpi both enabled. -/
def specCrayMpi : Spec := { specBase with cray := true, mpi := true }

/-- specBase with only mpi enabled. -/
def specMpiOnly : Spec := { specBase with mpi := true }

/-- A concrete run-environment modification list mixing accelerator
SetEnv entries with other entries. -/
def demoEnv : List EnvMod :=
  [ .setEnv "ROCM_PATH" "/opt/rocm",
    .prependPath "PATH" "/opt/hpctoolkit/bin",
    .setEnv "HIP_PATH" "/opt/hip",
    .setEnv "HPCTOOLKIT" "/opt/hpctoolkit",
    .setEnv "CUDA_HOME" "/opt/cuda",
    .unsetEnv "HPCTOOLKIT_DEBUG" ]

theorem configure_args_pure_witness :
    (configure_args_call specBase).1 = (configure_args_call specBase).1
    ∧ (configure_args_call specBase).2 = specBase
    ∧ (configure_args_call specBase).2 = specBase
    ∧ (configure_args_call specBase).1 = configure_args specBase :=
  configure_args_pure specBase specBase rfl

theorem cuda_variant_conditional_witness :
    variantDefault "cuda" = some false
    ∧ dagIncludes specCudaOn "cuda" = true
    ∧ ("--with-cuda=" ++ specCudaOn.prefOf "cuda") ∈ configure_args specCudaOn
    ∧ dagIncludes specBase "cuda" = false
    ∧ List.countP isCudaArg (configure_args specBase) = 0 := by
  have h1 := cuda_variant_conditional specCudaOn
  have h2 := cuda_variant_conditional specBase
  refine ⟨h1.1, ?_, h1.2.2.2 rfl, ?_, ?_⟩
  · rw [h1.2.1]
    rfl
  · rw [h2.2.1]
    rfl
  · rw [h2.2.2.1]
    decide

theorem no_conflict_in_resolved_witness :
    conflictRules.all (fun r => !(r.active specCudaOn)) = true
    ∧ verLe specCudaOn.version (.numeric [2019, 99, 99]) = false := by
  have h := no_conflict_in_resolved specCudaOn specCudaOn rfl
  exact ⟨h.1, h.2.1 rfl⟩

/-- The candidate binutils versions of the C5 example, newest first. -/
def binutilsRepo : String → List (List Nat) :=
  fun n => if n == "binutils" then [[2, 35], [2, 34], [2, 33, 1], [2, 32]] else []

/-- Two sibling requests both naming binutils, one pinning at most
2.34 and the other at most 2.33.1. -/
def binutilsReqs : List (String × VRange) :=
  [("binutils", ⟨none, some [2, 34]⟩), ("binutils", ⟨none, some [2, 33, 1]⟩)]

theorem single_instance_unification_witness :
    resolveDeps binutilsRepo binutilsReqs = some [("binutils", [2, 33, 1])]
    ∧ inRange [2, 33, 1] ⟨none, some [2, 34]⟩ = true
    ∧ inRange [2, 33, 1] ⟨none, some [2, 33, 1]⟩ = true := by
  have hres : resolveDeps binutilsRepo binutilsReqs = some [("binutils", [2, 33, 1])] := by
    decide
  have h := (single_instance_unification binutilsRepo binutilsReqs).1 _ hres
  have hsat := (h.2.1 ("binutils", [2, 33, 1]) (by decide)).2
  refine ⟨hres, ?_, ?_⟩
  · exact hsat ("binutils", ⟨none, some [2, 34]⟩) (by decide) rfl
  · exact hsat ("binutils", ⟨none, some [2, 33, 1]⟩) (by decide) rfl

theorem papi_perfmon_exclusive_witness :
    List.countP isPapiPerfmonArg (configure_args specBase) = 1
    ∧ ("--with-papi=" ++ specBase.prefOf "papi") ∈ configure_args specBase
    ∧ List.countP isPerfmonArg (configure_args specBase) = 0
    ∧ ("--with-perfmon=" ++ specPapiOff.prefOf "libpfm4") ∈ configure_args specPapiOff
    ∧ List.countP isPapiArg (configure_args specPapiOff) = 0 := by
  have h1 := papi_perfmon_exclusive specBase
  have h2 := papi_perfmon_exclusive specPapiOff
  exact ⟨h1.1, (h1.2.1 rfl).1, (h1.2.1 rfl).2, (h2.2.2 rfl).1, (h2.2.2 rfl).2⟩

theorem cray_over_mpi_witness :
    "--enable-mpi-search=cray" ∈ configure_args specCrayMpi
    ∧ "--enable-all-static" ∈ configure_args specCrayMpi
    ∧ List.countP isMpicxxArg (configure_args specCrayMpi) = 0
    ∧ List.countP isMpicxxArg (configure_args specMpiOnly) = 1 := by
  have h1 := cray_over_mpi specCrayMpi
  have h2 := cray_over_mpi specMpiOnly
  refine ⟨(h1.1 rfl).1, (h1.1 rfl).2, h1.2.2 rfl, ?_⟩
  rw [h2.2.1]
  decide

theorem setup_run_environment_frame_witness :
    setup_run_environment specBase demoEnv
      = demoEnv.filter (fun e => !(isAccelSetEnv e))
    ∧ List.Sublist (setup_run_environment specBase demoEnv) demoEnv
    ∧ (EnvMod.setEnv "HPCTOOLKIT" "/opt/hpctoolkit") ∈ setup_run_environment specBase demoEnv := by
  have h := setup_run_environment_frame specBase demoEnv
  exact ⟨h.1, h.2.1, h.2.2.2 _ (by decide) (by decide)⟩

end Hpctoolkit
